import Mathlib

/-!
Shallow embedding of the `honnef.co/go/js/xhr` package and its
`http.RoundTripper` transport, as found in the repository sources
(`src/unnamed/part_001`, the current package, and `src/transport/transport.go`,
which contains the identical `Transport` code).

The browser `XMLHttpRequest` object is an external collaborator; its
observable behaviour during one send (which terminal event fires, the status
code, the response payload, the raw response-header string) is supplied as an
environment value `SendEnv`.  Side effects on the underlying JS object and on
the Go process (listener registration, `send`, `abort`, reading the request
body, registering in the inflight map) are recorded as an event trace.
-/

namespace GoXhr

/-- Error values of the xhr package: `ErrAborted`, `ErrTimeout` and
`ErrFailure` (src/unnamed/part_001 lines 123-136). -/
inductive XhrError where
  | aborted
  | timeout
  | failure
deriving DecidableEq, Repr

/-- Which way the one outstanding send resolves: one of the three terminal
browser events (`load`, `error`, `timeout`, src/unnamed/part_001 lines
195-203), or `abortWon`, meaning the `ErrAborted` value written by a
concurrent `Abort` (lines 169-172) reached the completion channel first. -/
inductive SendEvent where
  | load
  | error
  | timeout
  | abortWon
deriving DecidableEq, Repr

/-- Observable behaviour of the underlying `XMLHttpRequest` for one send:
the resolving event, and the fields readable afterwards (`status`,
`statusText`, `response` — `none` models a JS `null` response, e.g. cleared
by a belated abort — and the `getAllResponseHeaders()` string). -/
structure SendEnv where
  event : SendEvent
  status : Nat := 0
  statusText : String := ""
  response : Option (List Nat) := none
  responseHeaders : String := ""

/-- Trace of externally visible effects performed by the Go code: calls into
the JS object, the body read, and mutations of the transport inflight map. -/
inductive Ev where
  | newXhr (method url : String)
  | setHeader (name value : String)
  | readBody
  | register (reqId : Nat)
  | jsSend
  | deregister (reqId : Nat)
  | jsAbort
deriving DecidableEq, Repr

/-- Result of `Request.Send`: either a returned value (the `error` result,
`none` meaning success) or a Go panic. -/
inductive SendResult where
  | ok (err : Option XhrError)
  | panicked (msg : String)
deriving DecidableEq, Repr

/-- Model of `xhr.Request` (src/unnamed/part_001 lines 93-107).  The field
`sent` models `r.ch != nil`: the completion channel is allocated exactly once,
at the start of `Send` (line 194), so its non-nilness is the "already sent"
flag.  `status`, `statusText` and `response` mirror the JS-backed fields. -/
structure XRequest where
  method : String
  url : String
  responseType : String
  sent : Bool
  status : Nat
  statusText : String
  response : Option (List Nat)
deriving DecidableEq, Repr

/-- Model of `NewRequest` (src/unnamed/part_001 lines 140-145): a fresh
XMLHttpRequest, opened with the given method and URL, channel still nil. -/
def newXRequest (method url : String) : XRequest :=
  { method := method, url := url, responseType := "", sent := false,
    status := 0, statusText := "", response := none }

/-- Mapping from the resolving event to the value `Send` returns
(src/unnamed/part_001 lines 195-207): `load` sends `nil`, `error` sends
`ErrFailure`, `timeout` sends `ErrTimeout`; `abortWon` is the
`ErrAborted` winning the race (lines 169-172). -/
def eventErr : SendEvent → Option XhrError
  | .load => none
  | .error => some .failure
  | .timeout => some .timeout
  | .abortWon => some .aborted

/-- Model of `Request.Send` (src/unnamed/part_001 lines 190-208).  If the
channel is already non-nil the call panics with the message from line 192 and
performs no further effect (in particular no second `send` is dispatched).
Otherwise the channel is allocated, the three listeners are attached, the
request is dispatched (`Ev.jsSend`), and the call blocks until the channel
yields the value determined by the resolving event. -/
def XRequest.send (r : XRequest) (env : SendEnv) : SendResult × XRequest × List Ev :=
  if r.sent then
    (.panicked "must not use a Request for multiple requests", r, [])
  else
    let r2 : XRequest :=
      { r with sent := true, status := env.status, statusText := env.statusText,
               response := env.response }
    (.ok (eventErr env.event), r2, [Ev.jsSend])

/-- Model of `Request.Abort` (src/unnamed/part_001 lines 163-173): if the
channel is nil (never sent) it returns immediately without touching the JS
object; otherwise it calls `abort()` on the JS object.  The subsequent
non-blocking channel write is modelled by `chanStep .abortTry` below. -/
def XRequest.abort (r : XRequest) : XRequest × List Ev :=
  if r.sent then (r, [Ev.jsAbort]) else (r, [])

/-! ### The single-slot completion channel

`Send` allocates `make(chan error, 1)` and performs one blocking receive;
each terminal-event listener performs one blocking send from its own
goroutine; `Abort` performs a `select`-with-`default` (non-blocking) send of
`ErrAborted`.  The state below captures the buffered slot, the at most one
pending event-listener goroutine, and what the blocked `Send` has received. -/

/-- Values travelling on the completion channel: `success` is the `nil`
written by the load listener, the others are the three error values. -/
inductive ChanVal where
  | success
  | failure
  | timeout
  | aborted
deriving DecidableEq, Repr

/-- State of the completion channel and its users: the capacity-one buffer
slot, the value (if any) that the terminal-event goroutine still has to
write, and the value (if any) that the blocked receive in `Send` obtained. -/
structure ChanSt where
  slot : Option ChanVal
  pendingEvent : Option ChanVal
  received : Option ChanVal
deriving DecidableEq, Repr

/-- Atomic actions on the channel: the event goroutine completing its
blocking send (only possible into an empty slot), the non-blocking
`select { case r.ch <- ErrAborted: default: }`, and the receive in `Send`. -/
inductive ChanAct where
  | deliverEvent
  | abortTry
  | recv
deriving DecidableEq, Repr

/-- One interleaving step; `none` means the action is not enabled in this
state.  `abortTry` is enabled in every state — on a full slot it takes the
`default` branch and does nothing, exactly the code at src/unnamed/part_001
lines 169-172. -/
def chanStep (s : ChanSt) : ChanAct → Option ChanSt
  | .deliverEvent =>
    match s.pendingEvent, s.slot with
    | some v, none => some { s with slot := some v, pendingEvent := none }
    | _, _ => none
  | .abortTry =>
    some (match s.slot with
          | none => { s with slot := some .aborted }
          | some _ => s)
  | .recv =>
    match s.received, s.slot with
    | none, some v => some { s with received := some v, slot := none }
    | _, _ => none

/-- Run a sequence of interleaving steps; `none` if a disabled action occurs. -/
def chanExec : ChanSt → List ChanAct → Option ChanSt
  | s, [] => some s
  | s, a :: rest =>
    match chanStep s a with
    | none => none
    | some s2 => chanExec s2 rest

/-- Channel state right after `Send` dispatched the request whose natural
terminal event will carry the value `v`: slot empty, one event delivery
pending, nothing received yet. -/
def chanInit (v : ChanVal) : ChanSt :=
  { slot := none, pendingEvent := some v, received := none }

/-- Invariant of all channel states reachable from `chanInit v`: the pending
event (if still undelivered) carries `v`; the slot and the received value can
only hold `v` or `aborted`; and once the event has been delivered, a value is
sitting in the slot or has been received. -/
def chanInv (v : ChanVal) (s : ChanSt) : Prop :=
  (s.pendingEvent = none ∨ s.pendingEvent = some v) ∧
  (∀ w, s.slot = some w → w = v ∨ w = ChanVal.aborted) ∧
  (∀ w, s.received = some w → w = v ∨ w = ChanVal.aborted) ∧
  (s.pendingEvent = none → s.slot = none → s.received.isSome = true)

theorem chanInv_init (v : ChanVal) : chanInv v (chanInit v) := by
  refine ⟨Or.inr rfl, ?_, ?_, ?_⟩ <;> intro h <;> simp [chanInit] at *

theorem chanInv_step (v : ChanVal) (s s2 : ChanSt) (a : ChanAct)
    (hinv : chanInv v s) (h : chanStep s a = some s2) : chanInv v s2 := by
  obtain ⟨h1, h2, h3, h4⟩ := hinv
  cases a with
  | deliverEvent =>
    cases hp : s.pendingEvent with
    | none => simp [chanStep, hp] at h
    | some w =>
      cases hs : s.slot with
      | some u => simp [chanStep, hp, hs] at h
      | none =>
        simp [chanStep, hp, hs] at h
        subst h
        have hw : w = v := by
          rcases h1 with h1 | h1
          · simp [hp] at h1
          · rw [hp] at h1; exact (Option.some.injEq _ _ ▸ h1).symm ▸ rfl
        refine ⟨Or.inl rfl, ?_, h3, ?_⟩
        · intro u hu
          simp at hu
          exact Or.inl (hu ▸ hw ▸ rfl)
        · intro _ hslot; simp at hslot
  | abortTry =>
    simp [chanStep] at h
    cases hs : s.slot with
    | none =>
      rw [hs] at h; subst h
      refine ⟨h1, ?_, h3, ?_⟩
      · intro w hw; simp at hw; exact Or.inr hw.symm
      · intro _ hslot; simp at hslot
    | some u =>
      rw [hs] at h; subst h
      exact ⟨h1, h2, h3, h4⟩
  | recv =>
    cases hr : s.received with
    | some w => simp [chanStep, hr] at h
    | none =>
      cases hs : s.slot with
      | none => simp [chanStep, hr, hs] at h
      | some w =>
        simp [chanStep, hr, hs] at h
        subst h
        refine ⟨h1, ?_, ?_, ?_⟩
        · intro u hu; simp at hu
        · intro u hu; simp at hu; exact hu ▸ h2 w hs
        · intro _ _; simp

theorem chanInv_exec (v : ChanVal) (tr : List ChanAct) (s s2 : ChanSt)
    (hinv : chanInv v s) (h : chanExec s tr = some s2) : chanInv v s2 := by
  induction tr generalizing s with
  | nil => simp [chanExec] at h; exact h ▸ hinv
  | cons a rest ih =>
    simp only [chanExec] at h
    cases hstep : chanStep s a with
    | none => rw [hstep] at h; exact absurd h (by simp)
    | some s3 => rw [hstep] at h; exact ih s3 (chanInv_step v s s3 a hinv hstep) h

theorem chanStep_keeps_received (s s2 : ChanSt) (a : ChanAct) (w : ChanVal)
    (hr : s.received = some w) (h : chanStep s a = some s2) :
    s2.received = some w := by
  cases a with
  | deliverEvent =>
    cases hp : s.pendingEvent with
    | none => simp [chanStep, hp] at h
    | some u =>
      cases hs : s.slot with
      | some x => simp [chanStep, hp, hs] at h
      | none => simp [chanStep, hp, hs] at h; rw [← h]; exact hr
  | abortTry =>
    simp [chanStep] at h
    cases hs : s.slot with
    | none => rw [hs] at h; rw [← h]; exact hr
    | some u => rw [hs] at h; rw [← h]; exact hr
  | recv => simp [chanStep, hr] at h

theorem chanExec_keeps_received (tr : List ChanAct) (s s2 : ChanSt) (w : ChanVal)
    (hr : s.received = some w) (h : chanExec s tr = some s2) :
    s2.received = some w := by
  induction tr generalizing s with
  | nil => simp [chanExec] at h; exact h ▸ hr
  | cons a rest ih =>
    simp only [chanExec] at h
    cases hstep : chanStep s a with
    | none => rw [hstep] at h; exact absurd h (by simp)
    | some s3 =>
      rw [hstep] at h
      exact ih s3 (chanStep_keeps_received s s3 a w hr hstep) h

/-! ### Response-header parsing

`RoundTrip` feeds the raw `getAllResponseHeaders()` string through the Go
`textproto.Reader.ReadMIMEHeader` and the `Version` pseudo-header through
`http.ParseHTTPVersion` (src/unnamed/part_001 lines 292-303).  Both are Go
standard-library functions, modelled here on lists of characters so that the
definitions evaluate inside the kernel.  Folded (continuation) header lines
are not modelled; no claim involves them. -/

/-- Characters allowed in a MIME header token (letters, digits and the
usual punctuation set); a key containing anything else is left
uncanonicalised by the Go `CanonicalMIMEHeaderKey`. -/
def isMimeTokenChar (c : Char) : Bool :=
  c.isAlphanum ||
    c ∈ ['!', '#', '$', '%', '&', Char.ofNat 39, '*', '+', '-', '.',
         '^', '_', Char.ofNat 96, '|', '~']

/-- Canonical capitalisation: uppercase the first letter and every letter
following a hyphen, lowercase the rest.  The boolean says whether the next
character starts a word. -/
def canonChars : Bool → List Char → List Char
  | _, [] => []
  | upper, c :: rest =>
    (if upper then c.toUpper else c.toLower) :: canonChars (c = '-') rest

/-- Model of the Go `textproto.CanonicalMIMEHeaderKey`: keys with a character
outside the token set are returned unchanged, all others are canonically
capitalised. -/
def canonicalMIMEHeaderKey (cs : List Char) : String :=
  if cs.any (fun c => !(isMimeTokenChar c)) then String.mk cs
  else String.mk (canonChars true cs)

/-- Split a character stream at every newline (the separators are consumed). -/
def splitNewlines (cur : List Char) : List Char → List (List Char)
  | [] => [cur.reverse]
  | c :: rest =>
    if c = '\n' then cur.reverse :: splitNewlines [] rest
    else splitNewlines (c :: cur) rest

/-- Drop one trailing carriage return, as the Go line reader does. -/
def dropCR (l : List Char) : List Char :=
  match l.getLast? with
  | some c => if c = '\r' then l.dropLast else l
  | none => l

/-- Lines of a raw header block: split at newlines and strip one trailing CR
from each newline-terminated segment.  The final segment is unterminated; it
counts as a line only when nonempty — when the input ends right after a
newline, the next read in Go yields `io.EOF` rather than a blank line. -/
def mimeLines (s : String) : List (List Char) :=
  let segs := splitNewlines [] s.data
  match segs.getLast? with
  | some [] => segs.dropLast.map dropCR
  | _ => segs.dropLast.map dropCR ++ [segs.getLast?.getD []]

/-- Split a header line at its first colon into key and rest; `none` when
the line has no colon (Go reports a malformed-header protocol error). -/
def splitColon (l : List Char) : Option (List Char × List Char) :=
  match l.findIdx? (fun c => c = ':') with
  | none => none
  | some i => some (l.take i, l.drop (i + 1))

/-- Strip the leading spaces and tabs of a header value. -/
def trimWS (l : List Char) : List Char :=
  l.dropWhile (fun c => c = ' ' || c = '\t')

/-- Append a value under a key in the header mapping, preserving the order
of values within a key (the Go code appends to `m[key]`). -/
def addHeader (hs : List (String × List String)) (k v : String) :
    List (String × List String) :=
  match hs with
  | [] => [(k, [v])]
  | (k2, vs) :: rest =>
    if k2 = k then (k2, vs ++ [v]) :: rest else (k2, vs) :: addHeader rest k v

/-- Outcome of `ReadMIMEHeader`: a block terminated by a blank line parses
cleanly (`ok`), a block ending at end of input yields the headers plus
`io.EOF` (`eofEnd`) — which `RoundTrip` tolerates — and a line without a
colon is a protocol error (`malformed`). -/
inductive MimeOut where
  | ok (hs : List (String × List String))
  | eofEnd (hs : List (String × List String))
  | malformed
deriving DecidableEq, Repr

/-- Line-by-line parsing loop of `ReadMIMEHeader`. -/
def parseMimeLines (hs : List (String × List String)) :
    List (List Char) → MimeOut
  | [] => .eofEnd hs
  | l :: rest =>
    if l = [] then .ok hs
    else
      match splitColon l with
      | none => .malformed
      | some (k, v) =>
        parseMimeLines
          (addHeader hs (canonicalMIMEHeaderKey k) (String.mk (trimWS v))) rest

/-- Model of `textproto.Reader.ReadMIMEHeader` over the raw header string. -/
def readMIMEHeader (s : String) : MimeOut :=
  parseMimeLines [] (mimeLines s)

/-- Value of a decimal digit run; `none` when empty or not all digits
(the Go `strconv.Atoi` fails there). -/
def digitsVal (cs : List Char) : Option Nat :=
  if cs = [] then none
  else if cs.all Char.isDigit then
    some (cs.foldl (fun a c => a * 10 + (c.toNat - 48)) 0)
  else none

/-- Nonnegative `strconv.Atoi`: an optional leading plus sign then digits.
A leading minus sign parses in Go but the negative result is rejected by
the `< 0` check in `ParseHTTPVersion`, so it is folded into `none` here. -/
def atoiN (cs : List Char) : Option Nat :=
  match cs with
  | [] => none
  | c :: rest =>
    if c = '+' then digitsVal rest
    else if c = '-' then none
    else digitsVal (c :: rest)

/-- Split at the first dot, `none` when there is no dot. -/
def splitDot (cs : List Char) : Option (List Char × List Char) :=
  match cs.findIdx? (fun c => c = '.') with
  | none => none
  | some i => some (cs.take i, cs.drop (i + 1))

/-- Core of the Go `http.ParseHTTPVersion`: the two fast paths, then the
general `HTTP/major.minor` form with both numbers at most one million;
`none` collects every `(0, 0, false)` exit of the Go function. -/
def parseHTTPVersionCore (vers : String) : Option (Nat × Nat) :=
  if vers = "HTTP/1.1" then some (1, 1)
  else if vers = "HTTP/1.0" then some (1, 0)
  else
    match vers.data with
    | 'H' :: 'T' :: 'T' :: 'P' :: '/' :: rest =>
      match splitDot rest with
      | none => none
      | some (mj, mn) =>
        match atoiN mj, atoiN mn with
        | some a, some b =>
          if a ≤ 1000000 ∧ b ≤ 1000000 then some (a, b) else none
        | _, _ => none
    | _ => none

/-- Model of `http.ParseHTTPVersion`, returning `(major, minor, ok)`;
every failing path yields `(0, 0, false)`. -/
def parseHTTPVersion (vers : String) : Nat × Nat × Bool :=
  match parseHTTPVersionCore vers with
  | some p => (p.1, p.2, true)
  | none => (0, 0, false)

/-- Lookup in the parsed header mapping; the empty list models a key
missing from the Go map. -/
def lookupHeader (hs : List (String × List String)) (k : String) : List String :=
  match hs.find? (fun p => p.1 = k) with
  | some p => p.2
  | none => []

/-! ### The Transport (http.RoundTripper) adapter

Model of the `Transport` type and its `RoundTrip`/`setCanceler` methods
(src/unnamed/part_001 lines 234-326; src/transport/transport.go lines 20-112
holds the same code). -/

/-- Model of the relevant parts of `*http.Request`: the `Host` override, the
method, the URL string, the header map (an association list fixing one
iteration order of the Go map, values per name in order), the body (`none`
models a nil body; a present body either yields its bytes or fails to read),
and `id`, standing for the pointer identity used as the inflight-map key. -/
structure HttpRequest where
  host : String
  method : String
  url : String
  header : List (String × List String)
  body : Option (Except String (List Nat))
  id : Nat

/-- Model of the `*http.Response` built by `RoundTrip`
(src/unnamed/part_001 lines 306-317). -/
structure HttpResponse where
  status : String
  statusCode : Nat
  proto : String
  protoMajor : Nat
  protoMinor : Nat
  header : List (String × List String)
  body : List Nat
  contentLength : Int
  request : Option HttpRequest

/-- Errors `RoundTrip` can return: the Host configuration error, a body-read
error, one of the xhr errors propagated from `Send` (or synthesised for a
cleared response), a malformed header block, and a propagating panic (which
cannot actually occur, the handle being fresh). -/
inductive RTError where
  | config (msg : String)
  | bodyRead (msg : String)
  | xhr (e : XhrError)
  | headerParse
  | panicked (msg : String)

/-- Protocol-version extraction (src/unnamed/part_001 lines 298-303): when
the parsed headers hold a `Version` pseudo-header, its first value is the
proto string and `ParseHTTPVersion` supplies major/minor with the ok flag
discarded; otherwise all three stay at their zero values. -/
def protoOf (hdrs : List (String × List String)) : String × Nat × Nat :=
  match lookupHeader hdrs "Version" with
  | [] => ("", 0, 0)
  | v :: _ => (v, (parseHTTPVersion v).1, (parseHTTPVersion v).2.1)

/-- Construction of the response literal (src/unnamed/part_001 lines
305-317): status line `"<code> <text>"`, parsed headers, the response bytes
as body with their length as content length, and — per the FIXME on line
315 — the original request object. -/
def mkResponse (req : HttpRequest) (x : XRequest)
    (hdrs : List (String × List String)) (b : List Nat) : HttpResponse :=
  { status := toString x.status ++ " " ++ x.statusText
    statusCode := x.status
    proto := (protoOf hdrs).1
    protoMajor := (protoOf hdrs).2.1
    protoMinor := (protoOf hdrs).2.2
    header := hdrs
    body := b
    contentLength := (b.length : Int)
    request := some req }

/-- Model of `Transport`: the set of request identities currently in the
`inflight` map (the mapped handle is not needed by any claim). -/
structure Transport where
  inflight : List Nat

/-- Model of `Transport.setCanceler` (src/unnamed/part_001 lines 239-250):
under the mutex, a `some` handle is stored for the request identity and a
`none` handle deletes the entry. -/
def Transport.setCanceler (t : Transport) (reqId : Nat) (x : Option Unit) :
    Transport :=
  match x with
  | some _ => { inflight := reqId :: t.inflight.filter (fun k => k ≠ reqId) }
  | none => { inflight := t.inflight.filter (fun k => k ≠ reqId) }

/-- Header-forwarding loop (src/unnamed/part_001 lines 260-264): for each
name in the iteration order of the header map, one `setRequestHeader` call per
value, in the order the values are stored. -/
def headerEvs (hs : List (String × List String)) : List Ev :=
  hs.flatMap (fun p => p.2.map (fun vv => Ev.setHeader p.1 vv))

/-- Outcome translation after `Send` returns (src/unnamed/part_001 lines
281-317): a `Send` error propagates unchanged; a nil `Response` on success
becomes `ErrAborted`; a malformed header block propagates the parse error
(`io.EOF` is tolerated); otherwise the response is built. -/
def finishRoundTrip (req : HttpRequest) (x2 : XRequest) (e : Option XhrError)
    (respHeaders : String) : Except RTError HttpResponse :=
  match e with
  | some err => .error (.xhr err)
  | none =>
    match x2.response with
    | none => .error (.xhr .aborted)
    | some b =>
      match readMIMEHeader respHeaders with
      | .malformed => .error .headerParse
      | .ok hdrs | .eofEnd hdrs => .ok (mkResponse req x2 hdrs b)

/-- Middle part of `RoundTrip` (src/unnamed/part_001 lines 276-317), entered
after the header loop and the body read: register the handle under the
request identity, send, deregister regardless of outcome, then translate.
The transport state and the trace do not depend on how the outcome is
translated; a panic in `Send` (impossible here, the handle being fresh)
would propagate before the deregistration. -/
def Transport.afterBody (t : Transport) (req : HttpRequest) (env : SendEnv)
    (x : XRequest) (evs : List Ev) :
    Except RTError HttpResponse × Transport × List Ev :=
  let t1 := t.setCanceler req.id (some ())
  match x.send env with
  | (.panicked m, _, _) =>
    (.error (.panicked m), t1, evs ++ [Ev.register req.id])
  | (.ok e, x2, sendEvs) =>
    (finishRoundTrip req x2 e env.responseHeaders,
     t1.setCanceler req.id none,
     evs ++ Ev.register req.id :: sendEvs ++ [Ev.deregister req.id])

/-- Model of `Transport.RoundTrip` (src/unnamed/part_001 lines 252-318):
reject a Host override before anything else; construct and configure the
handle; forward all headers; read the body eagerly if present, failing on a
read error; then hand over to `afterBody`. -/
def Transport.roundTrip (t : Transport) (req : HttpRequest) (env : SendEnv) :
    Except RTError HttpResponse × Transport × List Ev :=
  if req.host ≠ "" then
    (.error (.config "cannot set Host header with XHR"), t, [])
  else
    let x := { newXRequest req.method req.url with responseType := "arraybuffer" }
    let evs := Ev.newXhr req.method req.url :: headerEvs req.header
    match req.body with
    | some (.error e) => (.error (.bodyRead e), t, evs ++ [Ev.readBody])
    | some (.ok _bs) => t.afterBody req env x (evs ++ [Ev.readBody])
    | none => t.afterBody req env x evs

/-- The `setRequestHeader` calls of a trace, in order. -/
def headerCalls (evs : List Ev) : List (String × String) :=
  evs.filterMap (fun e =>
    match e with
    | Ev.setHeader k v => some (k, v)
    | _ => none)

/-! ### Concrete fixtures used by the witnesses -/

/-- Fixture: a GET request without body, no Host override, one header name
with two values. -/
def req0 : HttpRequest :=
  { host := "", method := "GET", url := "http://example.test/ok",
    header := [("Accept", ["text/plain", "application/json"])],
    body := none, id := 1 }

/-- Fixture: the underlying request fires `load` with status 200 and the
header block of end-to-end scenario 4. -/
def env0 : SendEnv :=
  { event := .load, status := 200, statusText := "OK",
    response := some [104, 105],
    responseHeaders := "Version: HTTP/1.1\r\nContent-Type: application/json\r\n\r\n" }

/-- Fixture: a transport with an empty inflight map. -/
def t0 : Transport := { inflight := [] }

/-- Fixture: the parsed form of the header block of `env0`. -/
def hdrs0 : List (String × List String) :=
  [("Version", ["HTTP/1.1"]), ("Content-Type", ["application/json"])]

/-- Fixture: the response `roundTrip t0 req0 env0` produces. -/
def resp0 : HttpResponse :=
  { status := "200 OK", statusCode := 200, proto := "HTTP/1.1",
    protoMajor := 1, protoMinor := 1, header := hdrs0,
    body := [104, 105], contentLength := 2, request := some req0 }

/-- Fixture: a handle whose completion channel is already allocated. -/
def sentReq0 : XRequest :=
  { method := "GET", url := "/e", responseType := "", sent := true,
    status := 0, statusText := "", response := none }

/-- Fixture: a freshly constructed, never-sent handle. -/
def freshReq0 : XRequest := newXRequest "GET" "/e"

/-- Fixture: the handle exactly as a completed `Send` (a `load` with status
200) returns it — no send is outstanding any more, but the completion
channel is still non-nil. -/
def doneReq0 : XRequest :=
  (freshReq0.send { event := SendEvent.load, status := 200 }).2.1

/-- Fixture: a load whose response payload was cleared to JS null. -/
def envCleared : SendEnv :=
  { event := .load, status := 200, statusText := "OK", response := none }

/-- Fixture: the abort value won the race on the completion channel. -/
def envAbortWon : SendEnv := { event := .abortWon }

/-- Fixture: a request carrying a Host override. -/
def reqHost : HttpRequest :=
  { host := "example.com", method := "GET", url := "http://example.test/ok",
    header := [], body := none, id := 2 }

/-! ### Claim theorems -/

/-- C1: calling `Send` a second time on a handle that was already sent
panics with the programming-error message, returns no outcome value, and
performs no effect — in particular no second request is dispatched. -/
theorem send_on_sent_handle_panics (r : XRequest) (env : SendEnv)
    (h : r.sent = true) :
    r.send env = (.panicked "must not use a Request for multiple requests", r, []) := by
  simp [XRequest.send, h]

theorem send_on_sent_handle_panics_witness :
    sentReq0.send { event := SendEvent.load } =
      (.panicked "must not use a Request for multiple requests", sentReq0, []) :=
  send_on_sent_handle_panics sentReq0 { event := SendEvent.load } rfl

/-- C2: for the completion channel of a send whose natural terminal value is
`v`, under every interleaving with concurrent `Abort` calls: the non-blocking
abort write is enabled in every state (it never blocks, deadlocks or
panics); any value the blocked caller receives is either the natural outcome
`v` or the aborted error, and once received it never changes (never both);
and from any reachable state where nothing was received yet, the receive can
still complete (never neither). -/
theorem abort_race_exactly_one_outcome (v : ChanVal) (tr : List ChanAct)
    (s : ChanSt) (h : chanExec (chanInit v) tr = some s) :
    (∀ s0 : ChanSt, (chanStep s0 ChanAct.abortTry).isSome = true) ∧
    (∀ w, s.received = some w → w = v ∨ w = ChanVal.aborted) ∧
    (∀ w tr2 s2, s.received = some w → chanExec s tr2 = some s2 →
      s2.received = some w) ∧
    (s.received = none →
      ∃ tr2 s2, chanExec s tr2 = some s2 ∧ s2.received.isSome = true) := by
  obtain ⟨h1, h2, h3, h4⟩ := chanInv_exec v tr (chanInit v) s (chanInv_init v) h
  refine ⟨fun s0 => by simp [chanStep], h3, ?_, ?_⟩
  · intro w tr2 s2 hr hex
    exact chanExec_keeps_received tr2 s s2 w hr hex
  · intro hr
    cases hs : s.slot with
    | some w =>
      refine ⟨[ChanAct.recv], { s with received := some w, slot := none },
        ?_, by simp⟩
      simp [chanExec, chanStep, hr, hs]
    | none =>
      cases hp : s.pendingEvent with
      | none =>
        have := h4 hp hs
        rw [hr] at this
        simp at this
      | some u =>
        refine ⟨[ChanAct.deliverEvent, ChanAct.recv],
          { s with slot := none, pendingEvent := none, received := some u },
          ?_, by simp⟩
        simp [chanExec, chanStep, hr, hs, hp]

theorem abort_race_exactly_one_outcome_witness :
    (∀ s0 : ChanSt, (chanStep s0 ChanAct.abortTry).isSome = true) ∧
    (∀ w, (chanInit ChanVal.success).received = some w →
      w = ChanVal.success ∨ w = ChanVal.aborted) ∧
    (∀ w tr2 s2, (chanInit ChanVal.success).received = some w →
      chanExec (chanInit ChanVal.success) tr2 = some s2 →
      s2.received = some w) ∧
    ((chanInit ChanVal.success).received = none →
      ∃ tr2 s2, chanExec (chanInit ChanVal.success) tr2 = some s2 ∧
        s2.received.isSome = true) :=
  abort_race_exactly_one_outcome ChanVal.success [] (chanInit ChanVal.success) rfl

/-- Helper: the header-forwarding loop emits only `setHeader` events. -/
theorem jsSend_notin_headerEvs (hs : List (String × List String)) :
    Ev.jsSend ∉ headerEvs hs := by
  intro hmem
  simp [headerEvs, List.mem_flatMap, List.mem_map] at hmem

/-- C3: when the request identity is not in the inflight map at entry, it
is not in the map after `RoundTrip` returns, on every path; and whenever the
request is actually dispatched, the trace shows the registration immediately
before the dispatch and the deregistration immediately after, with nothing
in between. -/
theorem roundTrip_inflight_clean (t : Transport) (req : HttpRequest)
    (env : SendEnv) (h : req.id ∉ t.inflight) :
    req.id ∉ (t.roundTrip req env).2.1.inflight ∧
    (Ev.jsSend ∈ (t.roundTrip req env).2.2 →
      ∃ pre, (t.roundTrip req env).2.2 =
        pre ++ [Ev.register req.id, Ev.jsSend, Ev.deregister req.id]) := by
  by_cases hh : req.host = ""
  · cases hb : req.body with
    | none =>
      constructor
      · simp [Transport.roundTrip, hh, hb, Transport.afterBody, XRequest.send,
              newXRequest, Transport.setCanceler, List.mem_filter]
      · intro _
        refine ⟨Ev.newXhr req.method req.url :: headerEvs req.header, ?_⟩
        simp [Transport.roundTrip, hh, hb, Transport.afterBody, XRequest.send,
              newXRequest]
    | some r =>
      cases r with
      | error e =>
        constructor
        · simp [Transport.roundTrip, hh, hb]
          exact h
        · intro hmem
          simp [Transport.roundTrip, hh, hb, headerEvs, List.mem_flatMap] at hmem
      | ok bs =>
        constructor
        · simp [Transport.roundTrip, hh, hb, Transport.afterBody, XRequest.send,
                newXRequest, Transport.setCanceler, List.mem_filter]
        · intro _
          refine ⟨(Ev.newXhr req.method req.url :: headerEvs req.header) ++
            [Ev.readBody], ?_⟩
          simp [Transport.roundTrip, hh, hb, Transport.afterBody, XRequest.send,
                newXRequest]
  · constructor
    · simp [Transport.roundTrip, hh]
      exact h
    · intro hmem
      simp [Transport.roundTrip, hh] at hmem

theorem roundTrip_inflight_clean_witness :
    req0.id ∉ (t0.roundTrip req0 env0).2.1.inflight ∧
    (Ev.jsSend ∈ (t0.roundTrip req0 env0).2.2 →
      ∃ pre, (t0.roundTrip req0 env0).2.2 =
        pre ++ [Ev.register req0.id, Ev.jsSend, Ev.deregister req0.id]) :=
  roundTrip_inflight_clean t0 req0 env0 (by simp [t0])

/-- C4: when `Send` reports success but the response payload of the handle is
absent (JS null), `RoundTrip` returns `ErrAborted` and no response — the
same error an explicit in-time abort produces. -/
theorem cleared_response_is_aborted (t : Transport) (req : HttpRequest)
    (env envA : SendEnv) (hhost : req.host = "")
    (hbody : ∀ e, req.body ≠ some (Except.error e))
    (hev : env.event = SendEvent.load) (hresp : env.response = none)
    (hevA : envA.event = SendEvent.abortWon) :
    (t.roundTrip req env).1 = Except.error (RTError.xhr XhrError.aborted) ∧
    (t.roundTrip req envA).1 = Except.error (RTError.xhr XhrError.aborted) := by
  cases hb : req.body with
  | none =>
    constructor <;>
      simp [Transport.roundTrip, hhost, hb, Transport.afterBody, XRequest.send,
            newXRequest, finishRoundTrip, eventErr, hev, hresp, hevA]
  | some r =>
    cases r with
    | error e => exact absurd hb (hbody e)
    | ok bs =>
      constructor <;>
        simp [Transport.roundTrip, hhost, hb, Transport.afterBody, XRequest.send,
              newXRequest, finishRoundTrip, eventErr, hev, hresp, hevA]

theorem cleared_response_is_aborted_witness :
    (t0.roundTrip req0 envCleared).1 = Except.error (RTError.xhr XhrError.aborted) ∧
    (t0.roundTrip req0 envAbortWon).1 = Except.error (RTError.xhr XhrError.aborted) :=
  cleared_response_is_aborted t0 req0 envCleared envAbortWon rfl
    (fun _ hh => Option.noConfusion hh) rfl rfl rfl

/-- C5: a request with a non-empty Host override is rejected with the
configuration error, with an empty effect trace — no handle constructed, no
body read, no network activity — and the transport state untouched. -/
theorem host_override_rejected (t : Transport) (req : HttpRequest)
    (env : SendEnv) (h : req.host ≠ "") :
    t.roundTrip req env =
      (Except.error (RTError.config "cannot set Host header with XHR"), t, []) := by
  simp [Transport.roundTrip, h]

theorem host_override_rejected_witness :
    t0.roundTrip reqHost env0 =
      (Except.error (RTError.config "cannot set Host header with XHR"), t0, []) :=
  host_override_rejected t0 reqHost env0 (by decide)

/-- C6: on a fresh handle, a `load` event makes `Send` return success no
matter what the status code is, with the status code carried on the handle;
the `error` event yields `ErrFailure`, the `timeout` event yields
`ErrTimeout`, and the two are distinct errors. -/
theorem load_is_success_regardless_of_status (r : XRequest) (env : SendEnv)
    (h : r.sent = false) :
    (env.event = SendEvent.load →
      (r.send env).1 = SendResult.ok none ∧
      (r.send env).2.1.status = env.status) ∧
    (env.event = SendEvent.error →
      (r.send env).1 = SendResult.ok (some XhrError.failure)) ∧
    (env.event = SendEvent.timeout →
      (r.send env).1 = SendResult.ok (some XhrError.timeout)) ∧
    XhrError.timeout ≠ XhrError.failure := by
  refine ⟨?_, ?_, ?_, by simp⟩ <;> intro hev <;>
    simp [XRequest.send, h, eventErr, hev]

theorem load_is_success_regardless_of_status_witness :
    ({ event := SendEvent.load, status := 404 : SendEnv }.event = SendEvent.load →
      (freshReq0.send { event := SendEvent.load, status := 404 }).1 =
        SendResult.ok none ∧
      (freshReq0.send { event := SendEvent.load, status := 404 }).2.1.status =
        ({ event := SendEvent.load, status := 404 : SendEnv }).status) ∧
    ({ event := SendEvent.load, status := 404 : SendEnv }.event = SendEvent.error →
      (freshReq0.send { event := SendEvent.load, status := 404 }).1 =
        SendResult.ok (some XhrError.failure)) ∧
    ({ event := SendEvent.load, status := 404 : SendEnv }.event = SendEvent.timeout →
      (freshReq0.send { event := SendEvent.load, status := 404 }).1 =
        SendResult.ok (some XhrError.timeout)) ∧
    XhrError.timeout ≠ XhrError.failure :=
  load_is_success_regardless_of_status freshReq0
    { event := SendEvent.load, status := 404 } rfl

/-- Helper: `headerCalls` over a run of `setHeader` events for one name. -/
theorem headerCalls_map_setHeader (k : String) (vs : List String) :
    headerCalls (vs.map (fun v => Ev.setHeader k v)) =
      vs.map (fun v => (k, v)) := by
  induction vs with
  | nil => rfl
  | cons v rest ih => simp [headerCalls, List.filterMap_cons] at ih ⊢; exact ih

/-- Helper: the header-forwarding loop forwards exactly the flattened header
mapping, in order. -/
theorem headerCalls_headerEvs (hs : List (String × List String)) :
    headerCalls (headerEvs hs) =
      hs.flatMap (fun p => p.2.map (fun v => (p.1, v))) := by
  induction hs with
  | nil => rfl
  | cons p rest ih =>
    simp only [headerEvs, List.flatMap_cons, headerCalls,
      List.filterMap_append] at ih ⊢
    rw [show List.filterMap _ (p.2.map (fun v => Ev.setHeader p.1 v)) =
          headerCalls (p.2.map (fun v => Ev.setHeader p.1 v)) from rfl,
        headerCalls_map_setHeader]
    exact congrArg _ ih

/-- C7: whenever the Host check passes, the sequence of `setRequestHeader`
calls `RoundTrip` performs is exactly every value of every header, one call
per value, in the enumeration order of the header mapping and, within one
name, in the stored order — none dropped, none merged.  This holds on every
path, including those failing later. -/
theorem roundTrip_forwards_all_headers (t : Transport) (req : HttpRequest)
    (env : SendEnv) (hhost : req.host = "") :
    headerCalls (t.roundTrip req env).2.2 =
      req.header.flatMap (fun p => p.2.map (fun v => (p.1, v))) := by
  cases hb : req.body with
  | none =>
    simp [Transport.roundTrip, hhost, hb, Transport.afterBody, XRequest.send,
          newXRequest, headerCalls, List.filterMap_append]
    exact headerCalls_headerEvs req.header
  | some r =>
    cases r with
    | error e =>
      simp [Transport.roundTrip, hhost, hb, headerCalls, List.filterMap_append]
      exact headerCalls_headerEvs req.header
    | ok bs =>
      simp [Transport.roundTrip, hhost, hb, Transport.afterBody, XRequest.send,
            newXRequest, headerCalls, List.filterMap_append]
      exact headerCalls_headerEvs req.header

theorem roundTrip_forwards_all_headers_witness :
    headerCalls (t0.roundTrip req0 env0).2.2 =
      req0.header.flatMap (fun p => p.2.map (fun v => (p.1, v))) :=
  roundTrip_forwards_all_headers t0 req0 env0 rfl

/-- C8 counterexample: the claim also covers a handle whose send has already
completed ("when no send is currently outstanding"), and there `Abort` is
not a no-op.  `doneReq0` is the handle state a completed `Send` returns
(src/unnamed/part_001 lines 190-208 never reset `r.ch`, so it stays non-nil
forever), and on it `Abort` (lines 163-173) does forward the `abort()` call
to the underlying primitive — the very call whose belated effect of clearing
the response field the comment at lines 286-288 records. -/
theorem abort_after_completed_send_not_noop :
    doneReq0.sent = true ∧
    doneReq0.abort = (doneReq0, [Ev.jsAbort]) ∧
    doneReq0.abort.2 ≠ [] := by
  refine ⟨rfl, ?_, ?_⟩ <;> simp [doneReq0, XRequest.abort, XRequest.send,
    freshReq0, newXRequest]

/-- C8 (amended: restricted to a handle on which `Send` has never been
called, the only case the code makes a no-op): calling `Abort` on a handle
that was never sent is a no-op — the handle is unchanged and no `abort()`
call reaches the underlying primitive — and a subsequent `Send` on that
handle still returns a value (it does not panic, and its blocking receive
completes, as the channel model shows). -/
theorem abort_before_send_noop (r : XRequest) (h : r.sent = false) :
    r.abort = (r, []) ∧
    ∀ env, ∃ e, ((r.abort).1.send env).1 = SendResult.ok e := by
  have hab : r.abort = (r, []) := by simp [XRequest.abort, h]
  refine ⟨hab, fun env => ⟨eventErr env.event, ?_⟩⟩
  rw [hab]
  simp [XRequest.send, h]

theorem abort_before_send_noop_witness :
    freshReq0.abort = (freshReq0, []) ∧
    ∀ env, ∃ e, ((freshReq0.abort).1.send env).1 = SendResult.ok e :=
  abort_before_send_noop freshReq0 rfl

/-- Helper: every failing exit of `ParseHTTPVersion` leaves major and minor
at zero. -/
theorem parseHTTPVersion_default_zero (v : String)
    (h : (parseHTTPVersion v).2.2 = false) :
    (parseHTTPVersion v).1 = 0 ∧ (parseHTTPVersion v).2.1 = 0 := by
  cases hc : parseHTTPVersionCore v with
  | none => simp [parseHTTPVersion, hc]
  | some p => simp [parseHTTPVersion, hc] at h

/-- C9: on the success path, `RoundTrip` never fails because of the
`Version` pseudo-header: it returns a response whose header map is the
parsed block, with protocol major/minor taken from `ParseHTTPVersion` on the
first `Version` value when that pseudo-header is present, and left at zero
when it is absent; an unparseable version token also yields zeros, because
every failing exit of `ParseHTTPVersion` returns zeros. -/
theorem version_header_parsing (t : Transport) (req : HttpRequest)
    (env : SendEnv) (b : List Nat) (hdrs : List (String × List String))
    (hhost : req.host = "") (hbody : ∀ e, req.body ≠ some (Except.error e))
    (hev : env.event = SendEvent.load) (hresp : env.response = some b)
    (hmime : readMIMEHeader env.responseHeaders = MimeOut.ok hdrs ∨
      readMIMEHeader env.responseHeaders = MimeOut.eofEnd hdrs) :
    (∃ resp, (t.roundTrip req env).1 = Except.ok resp ∧
      resp.header = hdrs ∧
      (lookupHeader hdrs "Version" = [] →
        resp.protoMajor = 0 ∧ resp.protoMinor = 0) ∧
      (∀ v rest, lookupHeader hdrs "Version" = v :: rest →
        resp.protoMajor = (parseHTTPVersion v).1 ∧
        resp.protoMinor = (parseHTTPVersion v).2.1)) ∧
    (∀ v, (parseHTTPVersion v).2.2 = false →
      (parseHTTPVersion v).1 = 0 ∧ (parseHTTPVersion v).2.1 = 0) := by
  refine ⟨?_, parseHTTPVersion_default_zero⟩
  obtain ⟨resp, hok⟩ : ∃ resp, (t.roundTrip req env).1 = Except.ok resp := by
    cases hb : req.body with
    | none =>
      rcases hmime with hm | hm <;>
        simp [Transport.roundTrip, hhost, hb, Transport.afterBody,
              XRequest.send, newXRequest, hev, eventErr, finishRoundTrip,
              hresp, hm]
    | some r =>
      cases r with
      | error e => exact absurd hb (hbody e)
      | ok bs =>
        rcases hmime with hm | hm <;>
          simp [Transport.roundTrip, hhost, hb, Transport.afterBody,
                XRequest.send, newXRequest, hev, eventErr, finishRoundTrip,
                hresp, hm]
  refine ⟨resp, hok, ?_⟩
  obtain ⟨x2, hfin⟩ : ∃ x2 : XRequest,
      finishRoundTrip req x2 none env.responseHeaders = Except.ok resp := by
    cases hb : req.body with
    | none =>
      simp only [Transport.roundTrip, hhost, hb] at hok
      simp [Transport.afterBody, XRequest.send, newXRequest, hev, eventErr]
        at hok
      exact ⟨_, hok⟩
    | some r =>
      cases r with
      | error e => exact absurd hb (hbody e)
      | ok bs =>
        simp only [Transport.roundTrip, hhost, hb] at hok
        simp [Transport.afterBody, XRequest.send, newXRequest, hev, eventErr]
          at hok
        exact ⟨_, hok⟩
  cases hx : x2.response with
  | none => simp [finishRoundTrip, hx] at hfin
  | some b2 =>
    rcases hmime with hm | hm <;>
    · simp [finishRoundTrip, hx, hm] at hfin
      subst hfin
      refine ⟨rfl, ?_, ?_⟩
      · intro hv; simp [mkResponse, protoOf, hv]
      · intro v rest hv; simp [mkResponse, protoOf, hv]

theorem version_header_parsing_witness :
    ∃ resp, (t0.roundTrip req0 env0).1 = Except.ok resp ∧
      resp.protoMajor = 1 ∧ resp.protoMinor = 1 ∧
      lookupHeader resp.header "Content-Type" = ["application/json"] := by
  obtain ⟨⟨resp, hok, hhdr, _, hcons⟩, _⟩ :=
    version_header_parsing t0 req0 env0 [104, 105] hdrs0 rfl
      (fun _ hh => Option.noConfusion hh) rfl rfl (Or.inl rfl)
  have hv := hcons "HTTP/1.1" [] (by decide)
  refine ⟨resp, hok, ?_, ?_, ?_⟩
  · rw [hv.1]; decide
  · rw [hv.2]; decide
  · rw [hhdr]; decide

/-- Helper: whenever the outcome translation produces a response, the
request field of the response holds the original request. -/
theorem finishRoundTrip_ok_request (req : HttpRequest) (x2 : XRequest)
    (e : Option XhrError) (rh : String) (resp : HttpResponse)
    (h : finishRoundTrip req x2 e rh = Except.ok resp) :
    resp.request = some req := by
  cases e with
  | some err => simp [finishRoundTrip] at h
  | none =>
    cases hx : x2.response with
    | none => simp [finishRoundTrip, hx] at h
    | some b =>
      cases hm : readMIMEHeader rh with
      | malformed => simp [finishRoundTrip, hx, hm] at h
      | ok hdrs =>
        simp [finishRoundTrip, hx, hm] at h
        rw [← h]; rfl
      | eofEnd hdrs =>
        simp [finishRoundTrip, hx, hm] at h
        rw [← h]; rfl

/-- C10: every response `RoundTrip` returns carries the original caller
request object in its `Request` field — it is never nil, contrary to the
standard `http.Response` documentation, as the FIXME at
src/unnamed/part_001 line 315 records. -/
theorem response_retains_request (t : Transport) (req : HttpRequest)
    (env : SendEnv) (resp : HttpResponse)
    (h : (t.roundTrip req env).1 = Except.ok resp) :
    resp.request = some req := by
  by_cases hh : req.host = ""
  · cases hb : req.body with
    | none =>
      simp only [Transport.roundTrip, hh, hb] at h
      simp only [Transport.afterBody, XRequest.send, newXRequest] at h
      exact finishRoundTrip_ok_request req _ _ _ resp h
    | some r =>
      cases r with
      | error e => simp [Transport.roundTrip, hh, hb] at h
      | ok bs =>
        simp only [Transport.roundTrip, hh, hb] at h
        simp only [Transport.afterBody, XRequest.send, newXRequest] at h
        exact finishRoundTrip_ok_request req _ _ _ resp h
  · simp [Transport.roundTrip, hh] at h

theorem response_retains_request_witness : resp0.request = some req0 :=
  response_retains_request t0 req0 env0 resp0 rfl
